import Mathlib

/-!
Shallow embedding of `src/OptionGreeksToolbox.py`, a Black-Scholes option
pricing toolbox with finite-difference Greeks, over the real numbers.

The Python code computes with floats via `numpy`/`scipy`; we embed it over
`ℝ`, with `scipy.stats.norm.cdf` modelled by the exact standard normal
cumulative distribution function `normCDF` below, and Python exceptions
modelled by an `Except` monad over an error type distinguishing
`ValueError` (the InvalidArgument condition), `TypeError` and
`RuntimeError`.
-/

open MeasureTheory Set

noncomputable section

/-- The standard normal density `φ(x) = exp(-x²/2)/√(2π)`. -/
def stdNormalPDF (x : ℝ) : ℝ :=
  (Real.sqrt (2 * Real.pi))⁻¹ * Real.exp (-x ^ 2 / 2)

/-- Model of `scipy.stats.norm.cdf`: the standard normal cumulative
distribution function `Φ(x) = (∫_{-∞}^x exp(-t²/2) dt)/√(2π)`. -/
def normCDF (x : ℝ) : ℝ :=
  (Real.sqrt (2 * Real.pi))⁻¹ * ∫ t in Iic x, Real.exp (-t ^ 2 / 2)

end


/-! ## The data model and operations of `OptionGreeksToolbox` -/

/-- Python exception classes that the toolbox's operations can surface.
`valueError` models `ValueError` (the spec's InvalidArgument condition,
raised in the source with the message `Invalid option type. Use call or
put.`); `typeError` models `TypeError` (arithmetic on a `None` objective
value inside the root-finder); `runtimeError` models `RuntimeError`
(`scipy` root-finder non-convergence). -/
inductive PyErr where
  | valueError : PyErr
  | typeError : PyErr
  | runtimeError : PyErr
deriving DecidableEq

/-- The held state set by `__init__`: spot `S`, strike `K`, maturity `T`,
volatility `sigma`, risk-free rate `r`. -/
structure OptionGreeksToolbox where
  S : ℝ
  K : ℝ
  T : ℝ
  sigma : ℝ
  r : ℝ

noncomputable section

/-- `black_scholes_european_call(self, S=None, T=None, sigma=None)`:
the closed-form call price, with per-call overrides for spot, maturity
and volatility defaulting to the held values. -/
def black_scholes_european_call (self : OptionGreeksToolbox)
    (S T sigma : Option ℝ) : ℝ :=
  let S := S.getD self.S
  let T := T.getD self.T
  let sigma := sigma.getD self.sigma
  let d1 := (Real.log (S / self.K) + (self.r + 0.5 * sigma ^ 2) * T) /
    (sigma * Real.sqrt T)
  let d2 := d1 - sigma * Real.sqrt T
  S * normCDF d1 - self.K * Real.exp (-self.r * T) * normCDF d2

/-- `black_scholes_european_put(self, S=None, T=None, sigma=None)`:
the closed-form put price, with the same override convention. -/
def black_scholes_european_put (self : OptionGreeksToolbox)
    (S T sigma : Option ℝ) : ℝ :=
  let S := S.getD self.S
  let T := T.getD self.T
  let sigma := sigma.getD self.sigma
  let d1 := (Real.log (S / self.K) + (self.r + 0.5 * sigma ^ 2) * T) /
    (sigma * Real.sqrt T)
  let d2 := d1 - sigma * Real.sqrt T
  self.K * Real.exp (-self.r * T) * normCDF (-d2) - S * normCDF (-d1)

/-- `calculate_black_scholes_option_price(self, option_type='call')`:
dispatches to the call or put pricer on the stored inputs, raising
`ValueError` for any other kind string. -/
def calculate_black_scholes_option_price (self : OptionGreeksToolbox)
    (option_type : String) : Except PyErr ℝ :=
  if option_type = "call" then
    Except.ok (black_scholes_european_call self none none none)
  else if option_type = "put" then
    Except.ok (black_scholes_european_put self none none none)
  else
    Except.error PyErr.valueError

open Classical in
/-- One step sequence of the secant iteration of `scipy.optimize.newton`
(the path taken when no derivative is supplied, as in the source), on an
objective that may return `none` (Python `None`): tolerance `1.48e-8`,
iteration budget 50, `TypeError` on a `None` objective value,
`RuntimeError` on a vanishing secant denominator or an exhausted budget. -/
def secantLoop (f : ℝ → Option ℝ) : ℕ → ℝ → ℝ → ℝ → ℝ → Except PyErr ℝ
  | 0, _, _, _, _ => Except.error PyErr.runtimeError
  | Nat.succ n, p0, p1, q0, q1 =>
    if q1 = q0 then
      if p1 = p0 then Except.ok ((p1 + p0) / 2) else Except.error PyErr.runtimeError
    else
      let p := p1 - q1 * (p1 - p0) / (q1 - q0)
      if |p - p1| ≤ 1.48e-8 then Except.ok p
      else
        match f p with
        | none => Except.error PyErr.typeError
        | some q => secantLoop f n p1 p q1 q

open Classical in
/-- Model of `scipy.optimize.newton(func, x0)` without `fprime`: the
secant method from `x0` with second point `x0·(1+1e-4) ± 1e-4`. A `None`
(`none`) objective value at either starting point surfaces as `TypeError`
(Python fails on `abs(None)` / arithmetic with `None`), never as
`ValueError`. -/
def newton (f : ℝ → Option ℝ) (x0 : ℝ) : Except PyErr ℝ :=
  let p1 := x0 * (1 + 1e-4)
  let p1 := p1 + (if 0 ≤ p1 then (1e-4 : ℝ) else -1e-4)
  match f x0, f p1 with
  | some q0, some q1 =>
    if |q1| < |q0| then secantLoop f 50 p1 x0 q1 q0 else secantLoop f 50 x0 p1 q0 q1
  | _, _ => Except.error PyErr.typeError

/-- `calculate_implied_volatility(self, market_price, option_type='call')`:
root-finds the volatility matching `market_price` via `newton` from
`x0 = 0.2`. The inner objective falls through both branches for an
unrecognized `option_type` and returns `None` (`none`): there is no
`ValueError` branch here. -/
def calculate_implied_volatility (self : OptionGreeksToolbox)
    (market_price : ℝ) (option_type : String) : Except PyErr ℝ :=
  let implied_volatility_func : ℝ → Option ℝ := fun sigma =>
    if option_type = "call" then
      some (black_scholes_european_call self none none (some sigma) - market_price)
    else if option_type = "put" then
      some (black_scholes_european_put self none none (some sigma) - market_price)
    else
      none
  newton implied_volatility_func 0.2

/-- `calculate_delta(self, option_type='call')`: forward difference of the
dispatched pricer in spot, step `epsilon = 0.001`. -/
def calculate_delta (self : OptionGreeksToolbox)
    (option_type : String) : Except PyErr ℝ :=
  let epsilon : ℝ := 0.001
  if option_type = "call" then
    Except.ok ((black_scholes_european_call self (some (self.S + epsilon)) none none -
      black_scholes_european_call self (some self.S) none none) / epsilon)
  else if option_type = "put" then
    Except.ok ((black_scholes_european_put self (some (self.S + epsilon)) none none -
      black_scholes_european_put self (some self.S) none none) / epsilon)
  else
    Except.error PyErr.valueError

/-- `calculate_gamma(self)`: central second difference of the call pricer
in spot, step `epsilon = 0.001`; no `option_type` parameter. -/
def calculate_gamma (self : OptionGreeksToolbox) : ℝ :=
  let epsilon : ℝ := 0.001
  (black_scholes_european_call self (some (self.S + epsilon)) none none -
    2 * black_scholes_european_call self (some self.S) none none +
    black_scholes_european_call self (some (self.S - epsilon)) none none) / epsilon ^ 2

/-- `calculate_theta(self, option_type='call')`: backward-in-time
difference of the dispatched pricer in maturity, step `1/252`. -/
def calculate_theta (self : OptionGreeksToolbox)
    (option_type : String) : Except PyErr ℝ :=
  if option_type = "call" then
    Except.ok ((black_scholes_european_call self none (some (self.T - 1 / 252)) none -
      black_scholes_european_call self none (some self.T) none) / (1 / 252))
  else if option_type = "put" then
    Except.ok ((black_scholes_european_put self none (some (self.T - 1 / 252)) none -
      black_scholes_european_put self none (some self.T) none) / (1 / 252))
  else
    Except.error PyErr.valueError

/-- `calculate_vega(self)`: forward difference of the call pricer in
volatility, step `epsilon = 0.001`; no `option_type` parameter. -/
def calculate_vega (self : OptionGreeksToolbox) : ℝ :=
  let epsilon : ℝ := 0.001
  (black_scholes_european_call self none none (some (self.sigma + epsilon)) -
    black_scholes_european_call self none none (some self.sigma)) / epsilon

/-- Calling `calculate_black_scholes_option_price` with `option_type`
omitted: the Python default is `option_type='call'`. -/
def calculate_black_scholes_option_price_default
    (self : OptionGreeksToolbox) : Except PyErr ℝ :=
  calculate_black_scholes_option_price self "call"

/-- Calling `calculate_implied_volatility` with `option_type` omitted:
the Python default is `option_type='call'`. -/
def calculate_implied_volatility_default (self : OptionGreeksToolbox)
    (market_price : ℝ) : Except PyErr ℝ :=
  calculate_implied_volatility self market_price "call"

/-- Calling `calculate_delta` with `option_type` omitted: the Python
default is `option_type='call'`. -/
def calculate_delta_default (self : OptionGreeksToolbox) : Except PyErr ℝ :=
  calculate_delta self "call"

/-- Calling `calculate_theta` with `option_type` omitted: the Python
default is `option_type='call'`. -/
def calculate_theta_default (self : OptionGreeksToolbox) : Except PyErr ℝ :=
  calculate_theta self "call"

end

/-- One public method invocation on an `OptionGreeksToolbox` object,
with its arguments. -/
inductive MethodCall where
  | callPrice (S T sigma : Option ℝ)
  | putPrice (S T sigma : Option ℝ)
  | calcPrice (option_type : String)
  | impliedVol (market_price : ℝ) (option_type : String)
  | deltaCall (option_type : String)
  | gammaCall
  | thetaCall (option_type : String)
  | vegaCall

noncomputable section

/-- State-passing semantics of one method invocation: the result together
with the object state after the call. No method body in the source
assigns to `self.S`, `self.K`, `self.T`, `self.sigma` or `self.r`, so
every branch returns the held state unchanged. -/
def runMethod (self : OptionGreeksToolbox) :
    MethodCall → Except PyErr ℝ × OptionGreeksToolbox
  | MethodCall.callPrice S T sigma =>
    (Except.ok (black_scholes_european_call self S T sigma), self)
  | MethodCall.putPrice S T sigma =>
    (Except.ok (black_scholes_european_put self S T sigma), self)
  | MethodCall.calcPrice option_type =>
    (calculate_black_scholes_option_price self option_type, self)
  | MethodCall.impliedVol market_price option_type =>
    (calculate_implied_volatility self market_price option_type, self)
  | MethodCall.deltaCall option_type => (calculate_delta self option_type, self)
  | MethodCall.gammaCall => (Except.ok (calculate_gamma self), self)
  | MethodCall.thetaCall option_type => (calculate_theta self option_type, self)
  | MethodCall.vegaCall => (Except.ok (calculate_vega self), self)

end

noncomputable section

/-- The source's shared intermediate `d1`, as a function of the effective
spot `s` with the other effective inputs taken from the held state. -/
def d1fun (c : OptionGreeksToolbox) (s : ℝ) : ℝ :=
  (Real.log (s / c.K) + (c.r + 0.5 * c.sigma ^ 2) * c.T) / (c.sigma * Real.sqrt c.T)

/-- The call pricer as a function of the spot override. -/
def callFn (c : OptionGreeksToolbox) (s : ℝ) : ℝ :=
  black_scholes_european_call c (some s) none none

/-- The put pricer as a function of the spot override. -/
def putFn (c : OptionGreeksToolbox) (s : ℝ) : ℝ :=
  black_scholes_european_put c (some s) none none

end

/-! ## Lemmas about the standard normal CDF -/

lemma gaussFun_eq : (fun t : ℝ => Real.exp (-t ^ 2 / 2)) =
    fun t : ℝ => Real.exp (-(1 / 2 : ℝ) * t ^ 2) := by
  funext t; ring_nf

lemma integrable_gaussFun : Integrable (fun t : ℝ => Real.exp (-t ^ 2 / 2)) := by
  rw [gaussFun_eq]
  exact integrable_exp_neg_mul_sq (by norm_num)

lemma continuous_gaussFun : Continuous (fun t : ℝ => Real.exp (-t ^ 2 / 2)) := by
  fun_prop

lemma integral_gaussFun : (∫ t : ℝ, Real.exp (-t ^ 2 / 2)) = Real.sqrt (2 * Real.pi) := by
  rw [gaussFun_eq, integral_gaussian]
  congr 1
  rw [div_div_eq_mul_div, div_one, mul_comm]

lemma sqrt_two_pi_pos : 0 < Real.sqrt (2 * Real.pi) :=
  Real.sqrt_pos.mpr (by positivity)

/-- `Φ(x) + Φ(-x) = 1`: the symmetry of the standard normal CDF. -/
lemma normCDF_add_neg (x : ℝ) : normCDF x + normCDF (-x) = 1 := by
  unfold normCDF
  have hrefl : (∫ t in Iic (-x), Real.exp (-t ^ 2 / 2)) =
      ∫ t in Ioi x, Real.exp (-t ^ 2 / 2) := by
    rw [← integral_comp_neg_Ioi]
    congr 1
    funext t
    ring_nf
  rw [hrefl, ← mul_add,
    intervalIntegral.integral_Iic_add_Ioi integrable_gaussFun.integrableOn
      integrable_gaussFun.integrableOn,
    integral_gaussFun, inv_mul_cancel₀ (ne_of_gt sqrt_two_pi_pos)]

lemma normCDF_nonneg (x : ℝ) : 0 ≤ normCDF x := by
  unfold normCDF
  apply mul_nonneg (inv_nonneg.mpr (le_of_lt sqrt_two_pi_pos))
  exact setIntegral_nonneg measurableSet_Iic fun t _ => (Real.exp_pos _).le

lemma normCDF_le_one (x : ℝ) : normCDF x ≤ 1 := by
  unfold normCDF
  rw [← inv_mul_cancel₀ (ne_of_gt sqrt_two_pi_pos)]
  apply mul_le_mul_of_nonneg_left _ (inv_nonneg.mpr (le_of_lt sqrt_two_pi_pos))
  rw [← integral_gaussFun]
  exact setIntegral_le_integral integrable_gaussFun
    (Filter.Eventually.of_forall fun t => (Real.exp_pos _).le)

/-- Fundamental theorem of calculus for the normal CDF: `Φ' = φ`. -/
lemma hasDerivAt_normCDF (x : ℝ) : HasDerivAt normCDF (stdNormalPDF x) x := by
  have hsplit : ∀ u : ℝ, normCDF u =
      (Real.sqrt (2 * Real.pi))⁻¹ * (∫ t in Iic (0 : ℝ), Real.exp (-t ^ 2 / 2)) +
      (Real.sqrt (2 * Real.pi))⁻¹ * ∫ t in (0 : ℝ)..u, Real.exp (-t ^ 2 / 2) := by
    intro u
    unfold normCDF
    rw [← intervalIntegral.integral_Iic_sub_Iic integrable_gaussFun.integrableOn
      integrable_gaussFun.integrableOn]
    ring
  have hftc : HasDerivAt (fun u : ℝ => ∫ t in (0 : ℝ)..u, Real.exp (-t ^ 2 / 2))
      (Real.exp (-x ^ 2 / 2)) x := by
    apply intervalIntegral.integral_hasDerivAt_right
      (integrable_gaussFun.intervalIntegrable)
      continuous_gaussFun.aestronglyMeasurable.stronglyMeasurableAtFilter
      continuous_gaussFun.continuousAt
  have h2 : HasDerivAt (fun u : ℝ =>
      (Real.sqrt (2 * Real.pi))⁻¹ * (∫ t in Iic (0 : ℝ), Real.exp (-t ^ 2 / 2)) +
      (Real.sqrt (2 * Real.pi))⁻¹ * ∫ t in (0 : ℝ)..u, Real.exp (-t ^ 2 / 2))
      (stdNormalPDF x) x := by
    have := (hftc.const_mul ((Real.sqrt (2 * Real.pi))⁻¹)).const_add
      ((Real.sqrt (2 * Real.pi))⁻¹ * ∫ t in Iic (0 : ℝ), Real.exp (-t ^ 2 / 2))
    simpa [stdNormalPDF] using this
  exact h2.congr_of_eventuallyEq (Filter.Eventually.of_forall hsplit)
/-! ## Helper lemmas -/

lemma parity_core (S K E a b : ℝ) :
    (S * normCDF a - K * E * normCDF b) - (K * E * normCDF (-b) - S * normCDF (-a)) =
      S - K * E := by
  have h1 := normCDF_add_neg a
  have h2 := normCDF_add_neg b
  linear_combination S * h1 - K * E * h2

lemma put_minus_core (S K E a b : ℝ) :
    K * E * normCDF (-b) - S * normCDF (-a) =
      S * normCDF a - K * E * normCDF b - S + K * E := by
  have h1 := normCDF_add_neg a
  have h2 := normCDF_add_neg b
  linear_combination K * E * h2 - S * h1

section SpotDerivative

variable (c : OptionGreeksToolbox)

lemma vol_sqrtT_pos (hT : 0 < c.T) (hsig : 0 < c.sigma) :
    0 < c.sigma * Real.sqrt c.T :=
  mul_pos hsig (Real.sqrt_pos.mpr hT)

lemma hasDerivAt_d1fun (hK : 0 < c.K) (hT : 0 < c.T) (hsig : 0 < c.sigma)
    {s : ℝ} (hs : 0 < s) :
    HasDerivAt (d1fun c) (1 / (s * (c.sigma * Real.sqrt c.T))) s := by
  have hv := vol_sqrtT_pos c hT hsig
  have hg : HasDerivAt (fun u : ℝ =>
      (Real.log u - Real.log c.K + (c.r + 0.5 * c.sigma ^ 2) * c.T) /
        (c.sigma * Real.sqrt c.T)) (s⁻¹ / (c.sigma * Real.sqrt c.T)) s := by
    exact (((Real.hasDerivAt_log hs.ne').sub_const (Real.log c.K)).add_const
      ((c.r + 0.5 * c.sigma ^ 2) * c.T)).div_const (c.sigma * Real.sqrt c.T)
  have heq : (fun u : ℝ =>
      (Real.log u - Real.log c.K + (c.r + 0.5 * c.sigma ^ 2) * c.T) /
        (c.sigma * Real.sqrt c.T)) =ᶠ[nhds s] d1fun c := by
    filter_upwards [eventually_gt_nhds hs] with u hu
    unfold d1fun
    rw [Real.log_div hu.ne' hK.ne']
  have := hg.congr_of_eventuallyEq heq.symm
  convert this using 1
  field_simp

lemma spot_density_identity (hK : 0 < c.K) (hT : 0 < c.T) (hsig : 0 < c.sigma)
    {s : ℝ} (hs : 0 < s) :
    s * stdNormalPDF (d1fun c s) =
      c.K * Real.exp (-c.r * c.T) *
        stdNormalPDF (d1fun c s - c.sigma * Real.sqrt c.T) := by
  have hv := vol_sqrtT_pos c hT hsig
  set v := c.sigma * Real.sqrt c.T with hvdef
  set a := d1fun c s with hadef
  have hv2 : v ^ 2 = c.sigma ^ 2 * c.T := by
    rw [hvdef, mul_pow, Real.sq_sqrt hT.le]
  have hav : a * v = Real.log (s / c.K) + (c.r + 0.5 * c.sigma ^ 2) * c.T := by
    rw [hadef]
    unfold d1fun
    rw [← hvdef, div_mul_cancel₀ _ hv.ne']
  have hexp : Real.exp (-(a - v) ^ 2 / 2) =
      Real.exp (-a ^ 2 / 2) * (s / c.K) * Real.exp (c.r * c.T) := by
    rw [← Real.exp_log (div_pos hs hK), ← Real.exp_add, ← Real.exp_add]
    congr 1
    have hexpand : -(a - v) ^ 2 / 2 = -a ^ 2 / 2 + (a * v - v ^ 2 / 2) := by ring
    rw [hexpand, hav, hv2]
    ring
  unfold stdNormalPDF
  rw [hexp]
  simp only [neg_mul]
  have hEE : Real.exp (-(c.r * c.T)) * Real.exp (c.r * c.T) = 1 := by
    rw [← Real.exp_add]
    simp
  field_simp
  linear_combination (-(s * Real.exp (-a ^ 2 / 2) * Real.sqrt 2 * Real.sqrt Real.pi * c.K)) * hEE

lemma hasDerivAt_callFn (hK : 0 < c.K) (hT : 0 < c.T) (hsig : 0 < c.sigma)
    {s : ℝ} (hs : 0 < s) :
    HasDerivAt (callFn c) (normCDF (d1fun c s)) s := by
  have hv := vol_sqrtT_pos c hT hsig
  set v := c.sigma * Real.sqrt c.T with hvdef
  have hd1 := hasDerivAt_d1fun c hK hT hsig hs
  have h1 : HasDerivAt (fun u : ℝ => normCDF (d1fun c u))
      (stdNormalPDF (d1fun c s) * (1 / (s * v))) s :=
    (hasDerivAt_normCDF (d1fun c s)).comp s hd1
  have h2 : HasDerivAt (fun u : ℝ => normCDF (d1fun c u - v))
      (stdNormalPDF (d1fun c s - v) * (1 / (s * v))) s :=
    (hasDerivAt_normCDF (d1fun c s - v)).comp s (hd1.sub_const v)
  have hmul : HasDerivAt (fun u : ℝ => u * normCDF (d1fun c u))
      (1 * normCDF (d1fun c s) + s * (stdNormalPDF (d1fun c s) * (1 / (s * v)))) s :=
    (hasDerivAt_id' s).mul h1
  have htot := hmul.sub (h2.const_mul (c.K * Real.exp (-c.r * c.T)))
  have hderiv_eq : 1 * normCDF (d1fun c s) + s * (stdNormalPDF (d1fun c s) * (1 / (s * v))) -
      c.K * Real.exp (-c.r * c.T) * (stdNormalPDF (d1fun c s - v) * (1 / (s * v))) =
      normCDF (d1fun c s) := by
    have key := spot_density_identity c hK hT hsig hs
    rw [← hvdef] at key
    simp only [neg_mul] at key ⊢
    field_simp
    linear_combination key
  exact hderiv_eq ▸ htot

lemma put_eq_callFn_sub (s : ℝ) :
    putFn c s = callFn c s - s + c.K * Real.exp (-c.r * c.T) := by
  unfold putFn callFn black_scholes_european_put black_scholes_european_call
  simp only [Option.getD_some, Option.getD_none]
  have := put_minus_core s c.K (Real.exp (-c.r * c.T))
    (d1fun c s) (d1fun c s - c.sigma * Real.sqrt c.T)
  unfold d1fun at this
  linarith [this]

lemma callFn_monotoneOn (hK : 0 < c.K) (hT : 0 < c.T) (hsig : 0 < c.sigma) :
    MonotoneOn (callFn c) (Set.Ioi 0) := by
  apply monotoneOn_of_deriv_nonneg (convex_Ioi 0)
  · intro x hx
    exact (hasDerivAt_callFn c hK hT hsig hx).continuousAt.continuousWithinAt
  · intro x hx
    rw [interior_Ioi] at hx
    exact (hasDerivAt_callFn c hK hT hsig hx).differentiableAt.differentiableWithinAt
  · intro x hx
    rw [interior_Ioi] at hx
    rw [(hasDerivAt_callFn c hK hT hsig hx).deriv]
    exact normCDF_nonneg _

lemma callFn_sub_antitoneOn (hK : 0 < c.K) (hT : 0 < c.T) (hsig : 0 < c.sigma) :
    AntitoneOn (fun s : ℝ => callFn c s - s) (Set.Ioi 0) := by
  apply antitoneOn_of_deriv_nonpos (convex_Ioi 0)
  · intro x hx
    exact ((hasDerivAt_callFn c hK hT hsig hx).sub
      (hasDerivAt_id' x)).continuousAt.continuousWithinAt
  · intro x hx
    rw [interior_Ioi] at hx
    exact ((hasDerivAt_callFn c hK hT hsig hx).sub
      (hasDerivAt_id' x)).differentiableAt.differentiableWithinAt
  · intro x hx
    rw [interior_Ioi] at hx
    rw [((hasDerivAt_callFn c hK hT hsig hx).sub (hasDerivAt_id' x)).deriv]
    have := normCDF_le_one (d1fun c x)
    linarith

end SpotDerivative

/-! ## Claim theorems -/

/-- C1: put-call parity. For every configuration with positive spot, strike,
maturity and volatility and any risk-free rate, the call pricer minus the put
pricer on identical effective inputs equals `S - K·exp(-r·T)` exactly, over
the real-valued embedding in which `normCDF x + normCDF (-x) = 1`. -/
theorem put_call_parity (c : OptionGreeksToolbox)
    (hS : 0 < c.S) (hK : 0 < c.K) (hT : 0 < c.T) (hsig : 0 < c.sigma) :
    black_scholes_european_call c none none none -
      black_scholes_european_put c none none none =
    c.S - c.K * Real.exp (-c.r * c.T) := by
  clear hS hK hT hsig
  simp only [black_scholes_european_call, black_scholes_european_put, Option.getD_none]
  exact parity_core _ _ _ _ _

/-- Witness for C1 at the configuration `(S, K, T, σ, r) = (1, 1, 1, 1, 0)`. -/
theorem put_call_parity_witness :
    black_scholes_european_call ⟨1, 1, 1, 1, 0⟩ none none none -
      black_scholes_european_put ⟨1, 1, 1, 1, 0⟩ none none none =
    1 - 1 * Real.exp (-0 * 1) :=
  put_call_parity ⟨1, 1, 1, 1, 0⟩ (by norm_num) (by norm_num) (by norm_num) (by norm_num)

/-- C2 counterexample: the claim that every kind-taking operation reports the
InvalidArgument condition (`ValueError`) on an unrecognized kind is false for
`calculate_implied_volatility`: at the concrete input `"straddle"` it surfaces
a `TypeError` from the root-finder (the inner objective silently returns
`None`), not a `ValueError`. -/
theorem implied_volatility_invalid_kind_counterexample :
    calculate_implied_volatility ⟨100, 100, 1, 0.2, 0.05⟩ 5 "straddle" =
      Except.error PyErr.typeError ∧
    calculate_implied_volatility ⟨100, 100, 1, 0.2, 0.05⟩ 5 "straddle" ≠
      Except.error PyErr.valueError := by
  refine ⟨rfl, ?_⟩
  intro h
  rw [show calculate_implied_volatility ⟨100, 100, 1, 0.2, 0.05⟩ 5 "straddle" =
    Except.error PyErr.typeError from rfl] at h
  simp at h

/-- C2 (amended): `calculate_black_scholes_option_price`, `calculate_delta`
and `calculate_theta` report the InvalidArgument condition (`ValueError`)
immediately on any kind string outside {call, put}; `calculate_implied_volatility`
instead fails with a `TypeError` from the root-finder, because its inner
objective falls through both kind branches and returns `None` — the invalid
kind is never recovered silently, but it is not reported as InvalidArgument. -/
theorem invalid_kind_errors (c : OptionGreeksToolbox) (mp : ℝ) (k : String)
    (hc : k ≠ "call") (hp : k ≠ "put") :
    calculate_black_scholes_option_price c k = Except.error PyErr.valueError ∧
    calculate_delta c k = Except.error PyErr.valueError ∧
    calculate_theta c k = Except.error PyErr.valueError ∧
    calculate_implied_volatility c mp k = Except.error PyErr.typeError := by
  refine ⟨?_, ?_, ?_, ?_⟩
  · simp [calculate_black_scholes_option_price, hc, hp]
  · simp [calculate_delta, hc, hp]
  · simp [calculate_theta, hc, hp]
  · simp only [calculate_implied_volatility, if_neg hc, if_neg hp]
    rfl

/-- Witness for the amended C2 at kind `"straddle"`. -/
theorem invalid_kind_errors_witness :
    calculate_black_scholes_option_price ⟨100, 100, 1, 0.2, 0.05⟩ "straddle" =
      Except.error PyErr.valueError ∧
    calculate_delta ⟨100, 100, 1, 0.2, 0.05⟩ "straddle" =
      Except.error PyErr.valueError ∧
    calculate_theta ⟨100, 100, 1, 0.2, 0.05⟩ "straddle" =
      Except.error PyErr.valueError ∧
    calculate_implied_volatility ⟨100, 100, 1, 0.2, 0.05⟩ 5 "straddle" =
      Except.error PyErr.typeError :=
  invalid_kind_errors ⟨100, 100, 1, 0.2, 0.05⟩ 5 "straddle" (by decide) (by decide)

/-- C3: the price dispatcher returns exactly the call pricer's value on the
stored inputs for kind `"call"`, exactly the put pricer's value for `"put"`,
and reports the InvalidArgument condition (`ValueError`) for any other kind
string — in particular for `"straddle"`. -/
theorem calculate_price_dispatch (c : OptionGreeksToolbox) :
    calculate_black_scholes_option_price c "call" =
      Except.ok (black_scholes_european_call c none none none) ∧
    calculate_black_scholes_option_price c "put" =
      Except.ok (black_scholes_european_put c none none none) ∧
    ∀ k : String, k ≠ "call" → k ≠ "put" →
      calculate_black_scholes_option_price c k = Except.error PyErr.valueError := by
  refine ⟨rfl, rfl, ?_⟩
  intro k hc hp
  simp [calculate_black_scholes_option_price, hc, hp]

/-- Witness for C3: `calculatePrice("straddle")` on a concrete configuration
reports the InvalidArgument condition. -/
theorem calculate_price_dispatch_witness :
    calculate_black_scholes_option_price ⟨100, 100, 1, 0.2, 0.05⟩ "straddle" =
      Except.error PyErr.valueError :=
  (calculate_price_dispatch ⟨100, 100, 1, 0.2, 0.05⟩).2.2 "straddle" (by decide) (by decide)

/-- C4: delta is the forward difference `(price(S+ε) - price(S))/ε` with
`ε = 0.001` of the call pricer for kind `"call"` and of the put pricer for
kind `"put"`, at the stored spot with strike, maturity, volatility and rate
unchanged. -/
theorem delta_forward_difference (c : OptionGreeksToolbox) :
    calculate_delta c "call" = Except.ok
      ((black_scholes_european_call ⟨c.S + 0.001, c.K, c.T, c.sigma, c.r⟩ none none none -
        black_scholes_european_call c none none none) / 0.001) ∧
    calculate_delta c "put" = Except.ok
      ((black_scholes_european_put ⟨c.S + 0.001, c.K, c.T, c.sigma, c.r⟩ none none none -
        black_scholes_european_put c none none none) / 0.001) :=
  ⟨rfl, rfl⟩

/-- C5: theta is the backward-in-time difference `(price(T-Δt) - price(T))/Δt`
with `Δt = 1/252` of the call pricer for kind `"call"` and of the put pricer
for kind `"put"`, at the stored maturity with the other stored parameters
unchanged. -/
theorem theta_backward_difference (c : OptionGreeksToolbox) :
    calculate_theta c "call" = Except.ok
      ((black_scholes_european_call ⟨c.S, c.K, c.T - 1 / 252, c.sigma, c.r⟩ none none none -
        black_scholes_european_call c none none none) / (1 / 252)) ∧
    calculate_theta c "put" = Except.ok
      ((black_scholes_european_put ⟨c.S, c.K, c.T - 1 / 252, c.sigma, c.r⟩ none none none -
        black_scholes_european_put c none none none) / (1 / 252)) :=
  ⟨rfl, rfl⟩

/-- C6: gamma is the central second difference and vega the forward
difference, both with `ε = 0.001`, both computed against the call pricer
only: neither takes an option kind and neither invokes the put pricer. -/
theorem gamma_vega_call_only (c : OptionGreeksToolbox) :
    calculate_gamma c =
      (black_scholes_european_call ⟨c.S + 0.001, c.K, c.T, c.sigma, c.r⟩ none none none -
        2 * black_scholes_european_call c none none none +
        black_scholes_european_call ⟨c.S - 0.001, c.K, c.T, c.sigma, c.r⟩ none none none) /
        0.001 ^ 2 ∧
    calculate_vega c =
      (black_scholes_european_call ⟨c.S, c.K, c.T, c.sigma + 0.001, c.r⟩ none none none -
        black_scholes_european_call c none none none) / 0.001 :=
  ⟨rfl, rfl⟩

/-- C7: no public operation changes the five stored fields — the state after
any method invocation equals the state before it — and per-call overrides
substitute spot, maturity or volatility into the formula for that single
call only, while strike and rate always come from the held state and are
never overridable. -/
theorem no_state_mutation (c : OptionGreeksToolbox) (m : MethodCall)
    (S T sigma : Option ℝ) :
    (runMethod c m).2 = c ∧
    black_scholes_european_call c S T sigma =
      black_scholes_european_call
        ⟨S.getD c.S, c.K, T.getD c.T, sigma.getD c.sigma, c.r⟩ none none none ∧
    black_scholes_european_put c S T sigma =
      black_scholes_european_put
        ⟨S.getD c.S, c.K, T.getD c.T, sigma.getD c.sigma, c.r⟩ none none none := by
  refine ⟨?_, rfl, rfl⟩
  cases m <;> rfl

/-- C8: monotonicity in spot — with positive strike, maturity and volatility,
the call price is non-decreasing and the put price non-increasing in the
(overridden) spot, over positive spots, all other parameters held fixed. -/
theorem price_monotone_in_spot (c : OptionGreeksToolbox)
    (hK : 0 < c.K) (hT : 0 < c.T) (hsig : 0 < c.sigma)
    (S1 S2 : ℝ) (h1 : 0 < S1) (h12 : S1 ≤ S2) :
    black_scholes_european_call c (some S1) none none ≤
      black_scholes_european_call c (some S2) none none ∧
    black_scholes_european_put c (some S2) none none ≤
      black_scholes_european_put c (some S1) none none := by
  have h2 : 0 < S2 := lt_of_lt_of_le h1 h12
  constructor
  · exact callFn_monotoneOn c hK hT hsig (Set.mem_Ioi.mpr h1) (Set.mem_Ioi.mpr h2) h12
  · show putFn c S2 ≤ putFn c S1
    rw [put_eq_callFn_sub, put_eq_callFn_sub]
    have := callFn_sub_antitoneOn c hK hT hsig (Set.mem_Ioi.mpr h1) (Set.mem_Ioi.mpr h2) h12
    simp only at this
    linarith

/-- Witness for C8 at the configuration `(100, 100, 1, 0.2, 0.05)` with
spots `1 ≤ 2`. -/
theorem price_monotone_in_spot_witness :
    black_scholes_european_call ⟨100, 100, 1, 0.2, 0.05⟩ (some 1) none none ≤
      black_scholes_european_call ⟨100, 100, 1, 0.2, 0.05⟩ (some 2) none none ∧
    black_scholes_european_put ⟨100, 100, 1, 0.2, 0.05⟩ (some 2) none none ≤
      black_scholes_european_put ⟨100, 100, 1, 0.2, 0.05⟩ (some 1) none none :=
  price_monotone_in_spot ⟨100, 100, 1, 0.2, 0.05⟩ (by norm_num) (by norm_num)
    (by norm_num) 1 2 (by norm_num) (by norm_num)

/-- C9: every kind-parameterized operation treats an omitted kind argument
as `"call"`: the Python default `option_type='call'` makes the
argument-omitted form of each operation return exactly the result of the
explicit-`"call"` form, and the price dispatcher's default routes to the
call pricer. -/
theorem omitted_kind_defaults_to_call (c : OptionGreeksToolbox) (mp : ℝ) :
    calculate_black_scholes_option_price_default c =
      Except.ok (black_scholes_european_call c none none none) ∧
    calculate_black_scholes_option_price_default c =
      calculate_black_scholes_option_price c "call" ∧
    calculate_implied_volatility_default c mp =
      calculate_implied_volatility c mp "call" ∧
    calculate_delta_default c = calculate_delta c "call" ∧
    calculate_theta_default c = calculate_theta c "call" :=
  ⟨rfl, rfl, rfl, rfl, rfl⟩

/-- C10: for a configuration satisfying the documented invariant but with
`0 < T ≤ 1/252`, theta evaluates the pricer at the non-positive maturity
`T - 1/252`, outside the pricer's stated domain: there `σ·√(T - 1/252)`,
the denominator of `d1`, is zero. -/
theorem theta_small_maturity_domain (c : OptionGreeksToolbox)
    (hT0 : 0 < c.T) (hT : c.T ≤ 1 / 252) :
    c.T - 1 / 252 ≤ 0 ∧
    c.sigma * Real.sqrt (c.T - 1 / 252) = 0 ∧
    calculate_theta c "call" = Except.ok
      ((black_scholes_european_call ⟨c.S, c.K, c.T - 1 / 252, c.sigma, c.r⟩ none none none -
        black_scholes_european_call c none none none) / (1 / 252)) ∧
    calculate_theta c "put" = Except.ok
      ((black_scholes_european_put ⟨c.S, c.K, c.T - 1 / 252, c.sigma, c.r⟩ none none none -
        black_scholes_european_put c none none none) / (1 / 252)) := by
  refine ⟨by linarith, ?_, rfl, rfl⟩
  rw [Real.sqrt_eq_zero_of_nonpos (by linarith), mul_zero]

/-- Witness for C10 at maturity exactly one trading day, `T = 1/252`. -/
theorem theta_small_maturity_domain_witness :
    (1 : ℝ) / 252 - 1 / 252 ≤ 0 ∧
    (0.2 : ℝ) * Real.sqrt (1 / 252 - 1 / 252) = 0 ∧
    calculate_theta ⟨100, 100, 1 / 252, 0.2, 0.05⟩ "call" = Except.ok
      ((black_scholes_european_call ⟨100, 100, 1 / 252 - 1 / 252, 0.2, 0.05⟩
          none none none -
        black_scholes_european_call ⟨100, 100, 1 / 252, 0.2, 0.05⟩ none none none) /
        (1 / 252)) ∧
    calculate_theta ⟨100, 100, 1 / 252, 0.2, 0.05⟩ "put" = Except.ok
      ((black_scholes_european_put ⟨100, 100, 1 / 252 - 1 / 252, 0.2, 0.05⟩
          none none none -
        black_scholes_european_put ⟨100, 100, 1 / 252, 0.2, 0.05⟩ none none none) /
        (1 / 252)) :=
  theta_small_maturity_domain ⟨100, 100, 1 / 252, 0.2, 0.05⟩ (by norm_num) (by norm_num)
